import Mathlib

/-!
Verification of the querymate query-compiler core against its specification.

The definitions below are shallow embeddings of the Python source:
* `Querymate.pagination` embeds `Querymate._pagination`
  (src/querymate/core/querymate.py, lines 181-208);
* `Querymate.paginationForGroup` embeds `Querymate._pagination_for_group`
  (src/querymate/core/querymate.py, lines 622-650).

Machine integers are modelled as `Nat`: all quantities involved (totals,
sizes, offsets, pages) are constrained non-negative by the pydantic field
validators (`ge=0`, `ge=1`) and by the SQL count semantics.
-/

namespace Querymate

/-- `settings.DEFAULT_LIMIT` from src/querymate/core/config.py. -/
def DEFAULT_LIMIT : Nat := 10

/-- `settings.DEFAULT_OFFSET` from src/querymate/core/config.py. -/
def DEFAULT_OFFSET : Nat := 0

/-- `settings.MAX_LIMIT` from src/querymate/core/config.py. -/
def MAX_LIMIT : Nat := 200

/-- Python `x or d` for an optional non-negative integer `x`: `None` and `0`
are falsy, every other `Nat` is returned unchanged. -/
def pyOrNat (v : Option Nat) (d : Nat) : Nat :=
  match v with
  | none => d
  | some n => if n = 0 then d else n

/-- The pagination metadata record (`PaginationInfo` in src/querymate/types.py). -/
structure PaginationInfo where
  total : Nat
  page : Nat
  size : Nat
  pages : Nat
  previous_page : Option Nat
  next_page : Option Nat
deriving DecidableEq, Repr

/-- Embedding of `Querymate._pagination` (querymate.py lines 181-208):
`size = self.limit or DEFAULT_LIMIT`, `offset_val = self.offset or DEFAULT_OFFSET`,
`pages = max(1, (total + size - 1) // size if size > 0 else 1)`,
`page = max(1, min((offset_val // size) + 1 if size > 0 else 1, pages))`,
`previous_page = page - 1 if page > 1 else None`,
`next_page = page + 1 if page < pages else None`. -/
def pagination (limit offset : Option Nat) (total : Nat) : PaginationInfo :=
  let size := pyOrNat limit DEFAULT_LIMIT
  let offsetVal := pyOrNat offset DEFAULT_OFFSET
  let pages0 := if 0 < size then (total + size - 1) / size else 1
  let pages := max 1 pages0
  let computedPage := if 0 < size then offsetVal / size + 1 else 1
  let page := max 1 (min computedPage pages)
  { total := total
    page := page
    size := size
    pages := pages
    previous_page := if 1 < page then some (page - 1) else none
    next_page := if page < pages then some (page + 1) else none }

/-- Embedding of `Querymate._pagination_for_group` (querymate.py lines 622-650):
identical arithmetic to `_pagination`, but `size`/`offset` are passed directly
as `limit`/`offset` arguments rather than read from the request state. -/
def paginationForGroup (total limit offset : Nat) : PaginationInfo :=
  let size := limit
  let pages0 := if 0 < size then (total + size - 1) / size else 1
  let pages := max 1 pages0
  let computedPage := if 0 < size then (offset / size) + 1 else 1
  let page := max 1 (min computedPage pages)
  { total := total
    page := page
    size := size
    pages := pages
    previous_page := if 1 < page then some (page - 1) else none
    next_page := if page < pages then some (page + 1) else none }

theorem pagination_eq_forGroup (total size offset : Nat) (hsize : 1 ≤ size) :
    pagination (some size) (some offset) total = paginationForGroup total size offset := by
  have h0 : ¬ size = 0 := by omega
  rcases Nat.eq_zero_or_pos offset with h | h
  · subst h; simp [pagination, paginationForGroup, pyOrNat, DEFAULT_OFFSET, h0]
  · have h1 : ¬ offset = 0 := by omega
    simp [pagination, paginationForGroup, pyOrNat, DEFAULT_OFFSET, h0, h1]

theorem paginationForGroup_pages (total size offset : Nat) (hsize : 1 ≤ size) :
    (paginationForGroup total size offset).pages = max 1 ((total + size - 1) / size) := by
  simp [paginationForGroup, Nat.lt_of_lt_of_le Nat.zero_lt_one hsize]

theorem paginationForGroup_page (total size offset : Nat) (hsize : 1 ≤ size) :
    (paginationForGroup total size offset).page
      = max 1 (min (offset / size + 1) (max 1 ((total + size - 1) / size))) := by
  simp [paginationForGroup, Nat.lt_of_lt_of_le Nat.zero_lt_one hsize]

theorem paginationForGroup_prev (total size offset : Nat) (hsize : 1 ≤ size) :
    (paginationForGroup total size offset).previous_page
      = if 1 < (paginationForGroup total size offset).page
        then some ((paginationForGroup total size offset).page - 1) else none := by
  simp [paginationForGroup, Nat.lt_of_lt_of_le Nat.zero_lt_one hsize]

theorem paginationForGroup_next (total size offset : Nat) (hsize : 1 ≤ size) :
    (paginationForGroup total size offset).next_page
      = if (paginationForGroup total size offset).page
            < (paginationForGroup total size offset).pages
        then some ((paginationForGroup total size offset).page + 1) else none := by
  simp [paginationForGroup, Nat.lt_of_lt_of_le Nat.zero_lt_one hsize]

theorem le_pages_mul (total size : Nat) (hs : 1 ≤ size) :
    total ≤ max 1 ((total + size - 1) / size) * size := by
  have hdm : size * ((total + size - 1) / size) + (total + size - 1) % size
      = total + size - 1 := Nat.div_add_mod _ _
  have hmlt : (total + size - 1) % size < size := Nat.mod_lt _ (by omega)
  rcases Nat.eq_zero_or_pos ((total + size - 1) / size) with h | h
  · rw [h] at hdm ⊢
    simp only [Nat.mul_zero] at hdm
    omega
  · have hmx : max 1 ((total + size - 1) / size) = (total + size - 1) / size := by omega
    rw [hmx, Nat.mul_comm]
    omega

theorem pages_pred_mul_lt (total size : Nat) (hs : 1 ≤ size) :
    1 < max 1 ((total + size - 1) / size) →
    (max 1 ((total + size - 1) / size) - 1) * size < total := by
  intro h2
  have hdm : size * ((total + size - 1) / size) + (total + size - 1) % size
      = total + size - 1 := Nat.div_add_mod _ _
  have hmlt : (total + size - 1) % size < size := Nat.mod_lt _ (by omega)
  have hmx : max 1 ((total + size - 1) / size) = (total + size - 1) / size := by omega
  rw [hmx, Nat.sub_mul, Nat.mul_comm]
  have h2s : size * 2 ≤ size * ((total + size - 1) / size) :=
    Nat.mul_le_mul_left size (by omega)
  omega

/-- C1: for every `total >= 0`, `size >= 1`, `offset >= 0`, the pagination
metadata computed by `Querymate._pagination` (and by the arithmetically
identical `Querymate._pagination_for_group`) satisfies
`pages = max(1, ceil(total / size))`, `page = clamp(offset / size + 1, 1, pages)`,
`1 <= page <= pages`, `previous_page` is `None` iff `page = 1` (and otherwise is
`page - 1`), `next_page` is `None` iff `page = pages` (and otherwise is
`page + 1`); `total = 0` yields `pages = 1`, `page = 1` and both neighbours
`None`, and an `offset` exceeding `total` clamps `page` to the last page. -/
theorem pagination_law (total size offset : Nat) (hsize : 1 ≤ size) :
    pagination (some size) (some offset) total = paginationForGroup total size offset ∧
    (pagination (some size) (some offset) total).pages
      = max 1 ((total + size - 1) / size) ∧
    total ≤ (pagination (some size) (some offset) total).pages * size ∧
    (1 < (pagination (some size) (some offset) total).pages →
      ((pagination (some size) (some offset) total).pages - 1) * size < total) ∧
    (pagination (some size) (some offset) total).page
      = min (offset / size + 1) (pagination (some size) (some offset) total).pages ∧
    1 ≤ (pagination (some size) (some offset) total).page ∧
    (pagination (some size) (some offset) total).page
      ≤ (pagination (some size) (some offset) total).pages ∧
    ((pagination (some size) (some offset) total).previous_page = none ↔
      (pagination (some size) (some offset) total).page = 1) ∧
    ((pagination (some size) (some offset) total).next_page = none ↔
      (pagination (some size) (some offset) total).page
        = (pagination (some size) (some offset) total).pages) ∧
    (total = 0 →
      (pagination (some size) (some offset) total).pages = 1 ∧
      (pagination (some size) (some offset) total).page = 1 ∧
      (pagination (some size) (some offset) total).previous_page = none ∧
      (pagination (some size) (some offset) total).next_page = none) ∧
    (total < offset →
      (pagination (some size) (some offset) total).page
        = (pagination (some size) (some offset) total).pages) := by
  have hq := pagination_eq_forGroup total size offset hsize
  rw [hq]
  rw [paginationForGroup_pages total size offset hsize,
    paginationForGroup_page total size offset hsize,
    paginationForGroup_prev total size offset hsize,
    paginationForGroup_next total size offset hsize,
    paginationForGroup_page total size offset hsize,
    paginationForGroup_pages total size offset hsize]
  refine ⟨rfl, rfl, le_pages_mul total size hsize, pages_pred_mul_lt total size hsize,
    by generalize offset / size = b; generalize (total + size - 1) / size = c; omega,
    by generalize offset / size = b; generalize (total + size - 1) / size = c; omega,
    by generalize offset / size = b; generalize (total + size - 1) / size = c; omega,
    ?_, ?_, ?_, ?_⟩
  · -- previous_page = none ↔ page = 1
    split
    · constructor
      · intro hx
        exact absurd hx (by simp)
      · intro hx
        exfalso; omega
    · constructor
      · intro hx
        omega
      · intro hx
        rfl
  · -- next_page = none ↔ page = pages
    split
    · constructor
      · intro hx
        exact absurd hx (by simp)
      · intro hx
        exfalso; omega
    · constructor
      · intro hx
        omega
      · intro hx
        rfl
  · -- total = 0 yields one page, page 1, both neighbours none
    intro h
    subst h
    have hz : (0 + size - 1) / size = 0 := Nat.div_eq_of_lt (by omega)
    rw [hz]
    refine ⟨by omega, by omega, ?_, ?_⟩
    · split
      · exfalso; omega
      · rfl
    · split
      · exfalso; omega
      · rfl
  · -- offset exceeding total clamps page to the last page
    intro h
    have h1 : total + size - 1 ≤ offset - 1 + size := by omega
    have h2 : (total + size - 1) / size ≤ (offset - 1 + size) / size :=
      Nat.div_le_div_right h1
    have h3 : (offset - 1 + size) / size = (offset - 1) / size + 1 :=
      Nat.add_div_right _ (by omega)
    have h4 : (offset - 1) / size ≤ offset / size := Nat.div_le_div_right (by omega)
    omega

/-- Witness for C1 at the concrete case of the spec:
`total = 7, size = 3, offset = 6` gives `pages = 3, page = 3`. -/
theorem pagination_law_witness :
    (1 : Nat) ≤ 3 ∧
    (pagination (some 3) (some 6) 7 = paginationForGroup 7 3 6 ∧
    (pagination (some 3) (some 6) 7).pages = max 1 ((7 + 3 - 1) / 3) ∧
    7 ≤ (pagination (some 3) (some 6) 7).pages * 3 ∧
    (1 < (pagination (some 3) (some 6) 7).pages →
      ((pagination (some 3) (some 6) 7).pages - 1) * 3 < 7) ∧
    (pagination (some 3) (some 6) 7).page
      = min (6 / 3 + 1) (pagination (some 3) (some 6) 7).pages ∧
    1 ≤ (pagination (some 3) (some 6) 7).page ∧
    (pagination (some 3) (some 6) 7).page ≤ (pagination (some 3) (some 6) 7).pages ∧
    ((pagination (some 3) (some 6) 7).previous_page = none ↔
      (pagination (some 3) (some 6) 7).page = 1) ∧
    ((pagination (some 3) (some 6) 7).next_page = none ↔
      (pagination (some 3) (some 6) 7).page = (pagination (some 3) (some 6) 7).pages) ∧
    ((7 : Nat) = 0 →
      (pagination (some 3) (some 6) 7).pages = 1 ∧
      (pagination (some 3) (some 6) 7).page = 1 ∧
      (pagination (some 3) (some 6) 7).previous_page = none ∧
      (pagination (some 3) (some 6) 7).next_page = none) ∧
    ((7 : Nat) < 6 →
      (pagination (some 3) (some 6) 7).page = (pagination (some 3) (some 6) 7).pages)) :=
  ⟨by omega, pagination_law 7 3 6 (by omega)⟩

/-! ## Python error outcomes

Fallible Python code is embedded as `Except PyError`. -/

/-- The Python exception kinds raised by the embedded code paths. -/
inductive PyError where
  | attributeError (msg : String)
  | valueError (msg : String)
  | keyError (msg : String)
  | typeError (msg : String)
  | indexError (msg : String)
deriving DecidableEq, Repr

/-! ## QueryBuilder.apply_limit / apply_offset

Embedding of src/querymate/core/query_builder.py lines 258-310. The builder
state is reduced to the fields these two methods read and write: `self.limit`,
`self.offset`, and the LIMIT/OFFSET clauses attached to `self.query`. -/

/-- The limit/offset fragment of the `QueryBuilder` state. -/
structure QBPage where
  limit : Int
  offset : Int
  queryLimit : Option Int
  queryOffset : Option Int
deriving DecidableEq, Repr

/-- Embedding of `QueryBuilder.apply_limit`: `if not limit: return self`;
`if limit < 0`: log a warning and use `settings.DEFAULT_LIMIT`, else use
`limit`; then `self.query = self.query.limit(self.limit)`. No branch raises. -/
def apply_limit (limit : Option Int) (qb : QBPage) : Except PyError QBPage :=
  match limit with
  | none => .ok qb
  | some l =>
    if l = 0 then .ok qb
    else
      let newLimit : Int := if l < 0 then (DEFAULT_LIMIT : Nat) else l
      .ok { qb with limit := newLimit, queryLimit := some newLimit }

/-- Embedding of `QueryBuilder.apply_offset`: `if not offset: return self`;
`if offset < 0`: log a warning and use `settings.DEFAULT_OFFSET`, else use
`offset`; then `self.query = self.query.offset(self.offset)`. No branch raises. -/
def apply_offset (offset : Option Int) (qb : QBPage) : Except PyError QBPage :=
  match offset with
  | none => .ok qb
  | some o =>
    if o = 0 then .ok qb
    else
      let newOffset : Int := if o < 0 then (DEFAULT_OFFSET : Nat) else o
      .ok { qb with offset := newOffset, queryOffset := some newOffset }

/-- C9: for every negative limit and every negative offset, `apply_limit` and
`apply_offset` raise no error: the call returns normally (an `.ok` result) with
the value silently replaced by the configured default (`DEFAULT_LIMIT` /
`DEFAULT_OFFSET`), which is also what gets attached to the query. -/
theorem apply_limit_offset_negative (qb : QBPage) (l o : Int)
    (hl : l < 0) (ho : o < 0) :
    apply_limit (some l) qb
      = .ok { qb with limit := (DEFAULT_LIMIT : Nat),
                      queryLimit := some ((DEFAULT_LIMIT : Nat) : Int) } ∧
    apply_offset (some o) qb
      = .ok { qb with offset := (DEFAULT_OFFSET : Nat),
                      queryOffset := some ((DEFAULT_OFFSET : Nat) : Int) } := by
  have hl0 : ¬ l = 0 := by omega
  have ho0 : ¬ o = 0 := by omega
  constructor
  · simp only [apply_limit, if_neg hl0, if_pos hl]
  · simp only [apply_offset, if_neg ho0, if_pos ho]

/-- Witness for C9 at `limit = -10`, `offset = -5` on a fresh builder state. -/
theorem apply_limit_offset_negative_witness :
    (-10 : Int) < 0 ∧ (-5 : Int) < 0 ∧
    (apply_limit (some (-10)) ⟨10, 0, Option.none, Option.none⟩
        = .ok { (⟨10, 0, Option.none, Option.none⟩ : QBPage) with
                  limit := (DEFAULT_LIMIT : Nat),
                  queryLimit := some ((DEFAULT_LIMIT : Nat) : Int) } ∧
      apply_offset (some (-5)) ⟨10, 0, Option.none, Option.none⟩
        = .ok { (⟨10, 0, Option.none, Option.none⟩ : QBPage) with
                  offset := (DEFAULT_OFFSET : Nat),
                  queryOffset := some ((DEFAULT_OFFSET : Nat) : Int) }) :=
  ⟨by decide, by decide,
    apply_limit_offset_negative ⟨10, 0, Option.none, Option.none⟩ (-10) (-5)
      (by decide) (by decide)⟩

/-! ## Missing QueryBuilder methods (pagination and grouping fetchers)

`Querymate.run_paginated`, `run_async_paginated`, `run_grouped` and
`run_grouped_async` (src/querymate/core/querymate.py) call `QueryBuilder`
methods by attribute access. Attribute lookup on a `QueryBuilder` instance is
embedded as membership in the list of method names the class actually defines
(src/querymate/core/query_builder.py): a name outside that list raises
`AttributeError` at the call site. -/

/-- The complete list of methods defined by the `QueryBuilder` class, in source
order (src/querymate/core/query_builder.py lines 26-575). -/
def queryBuilderMethods : List String :=
  ["__init__", "_select", "apply_select", "apply_filter", "apply_sort",
   "apply_limit", "apply_offset", "build", "_serialize_object", "serialize",
   "fetch", "reconstruct_objects", "exec", "reconstruct_object",
   "fetch_async", "exec_async"]

/-- `QueryBuilder` methods invoked by `Querymate.run_paginated`, in call
order: `build`, `fetch`, `serialize`, `count` (querymate.py lines 283-293). -/
def qbCallsRunPaginated : List String := ["build", "fetch", "serialize", "count"]

/-- `QueryBuilder` methods invoked by `Querymate.run_async_paginated`, in call
order (querymate.py lines 350-360). -/
def qbCallsRunAsyncPaginated : List String :=
  ["build", "fetch_async", "serialize", "count_async"]

/-- `QueryBuilder` methods invoked by `Querymate.run_grouped`, in first-call
order: `build`, `get_distinct_group_keys`, then per group `fetch_for_group`
and `serialize` (querymate.py lines 451-492). -/
def qbCallsRunGrouped : List String :=
  ["build", "get_distinct_group_keys", "fetch_for_group", "serialize"]

/-- `QueryBuilder` methods invoked by `Querymate.run_grouped_async`, in
first-call order (querymate.py lines 560-599). -/
def qbCallsRunGroupedAsync : List String :=
  ["build", "get_distinct_group_keys_async", "fetch_for_group_async", "serialize"]

/-- The first attribute in a call sequence that the `QueryBuilder` class does
not define; Python raises `AttributeError` there. -/
def firstMissingMethod (calls : List String) : Option String :=
  calls.find? (fun m => !(queryBuilderMethods.contains m))

/-- Outcome of running a `Querymate` method whose `QueryBuilder` call sequence
is `calls`: the first call to an undefined attribute raises `AttributeError`
before any response value is produced. -/
def methodCallOutcome (calls : List String) : Except PyError Unit :=
  match firstMissingMethod calls with
  | some m => .error (.attributeError m)
  | Option.none => .ok ()

/-- Outcome of `Querymate.run_paginated` (querymate.py lines 269-298). -/
def run_paginated_outcome : Except PyError Unit :=
  methodCallOutcome qbCallsRunPaginated

/-- Outcome of `Querymate.run_async_paginated` (querymate.py lines 336-365). -/
def run_async_paginated_outcome : Except PyError Unit :=
  methodCallOutcome qbCallsRunAsyncPaginated

/-- Outcome of `Querymate.run_grouped` (querymate.py lines 407-514): when
`group_by` is unset, `_get_group_config` raises `ValueError` first; otherwise
the `QueryBuilder` call sequence decides the outcome. -/
def run_grouped_outcome (groupBySet : Bool) : Except PyError Unit :=
  if groupBySet then methodCallOutcome qbCallsRunGrouped
  else .error (.valueError "group_by parameter is required for grouped queries")

/-- Outcome of `Querymate.run_grouped_async` (querymate.py lines 516-620). -/
def run_grouped_async_outcome (groupBySet : Bool) : Except PyError Unit :=
  if groupBySet then methodCallOutcome qbCallsRunGroupedAsync
  else .error (.valueError "group_by parameter is required for grouped queries")

/-- C10: `run_paginated`, `run_async_paginated`, `run_grouped` (with `group_by`
set) and `run_grouped_async` each raise `AttributeError` before producing any
response, because they call `QueryBuilder.count` / `count_async` /
`get_distinct_group_keys` / `get_distinct_group_keys_async` /
`fetch_for_group` / `fetch_for_group_async`, none of which the `QueryBuilder`
class defines. -/
theorem run_methods_raise_attribute_error :
    run_paginated_outcome = .error (.attributeError "count") ∧
    run_async_paginated_outcome = .error (.attributeError "count_async") ∧
    run_grouped_outcome true = .error (.attributeError "get_distinct_group_keys") ∧
    run_grouped_async_outcome true
      = .error (.attributeError "get_distinct_group_keys_async") ∧
    "count" ∉ queryBuilderMethods ∧
    "count_async" ∉ queryBuilderMethods ∧
    "get_distinct_group_keys" ∉ queryBuilderMethods ∧
    "get_distinct_group_keys_async" ∉ queryBuilderMethods ∧
    "fetch_for_group" ∉ queryBuilderMethods ∧
    "fetch_for_group_async" ∉ queryBuilderMethods := by
  refine ⟨rfl, rfl, rfl, rfl, ?_, ?_, ?_, ?_, ?_, ?_⟩ <;> decide

/-! ## Values, columns, entity metadata

JSON scalar operand values. List-valued operands (of `in` / `_any` / `_all`
operators) are never inspected by any property below and are omitted from the
value type; no parsing decision in the source depends on the operand value. -/

/-- A JSON scalar value as carried in query descriptors and result rows. -/
inductive Val where
  | i (n : Int)
  | s (v : String)
  | b (v : Bool)
  | none
deriving DecidableEq, Repr

/-- What attribute access on a model class yields during field resolution:
a scalar column (`getattr(model, field)` for a model field), a relationship
attribute, or a related model class (`attr.property.mapper.class_`). -/
inductive ColRef where
  | col (model field : String)
  | relAttr (model rel : String)
  | relClass (model : String)
deriving DecidableEq, Repr

/-- Entity metadata for one SQLModel class: `model_fields` keys in declaration
order, the primary-key column, and the relationships as
(name, target model, uselist). -/
structure ModelDef where
  fields : List String
  pk : String
  rels : List (String × String × Bool)
deriving DecidableEq, Repr

/-- The schema: model name to metadata, as supplied by the ORM layer. -/
def Schema : Type := List (String × ModelDef)

/-- Class lookup by model name. -/
def lookupModel (schema : Schema) (name : String) : Option ModelDef :=
  (schema.find? (fun p => p.1 == name)).map (fun p => p.2)

/-- Relationship lookup on one model: `inspection.relationships.get(name)`. -/
def lookupRel (md : ModelDef) (name : String) : Option (String × Bool) :=
  (md.rels.find? (fun r => r.1 == name)).map (fun r => r.2)

/-- The `User` model of tests/models.py. -/
def userDef : ModelDef :=
  { fields := ["id", "name", "email", "age", "is_active", "status",
               "created_at", "birth_date", "last_login"]
    pk := "id"
    rels := [("posts", "post", true)] }

/-- The `Post` model of tests/models.py. -/
def postDef : ModelDef :=
  { fields := ["id", "title", "content", "status", "user_id",
               "created_at", "published_at"]
    pk := "id"
    rels := [("user", "user", false)] }

/-- The two-model schema of tests/models.py. -/
def testSchema : Schema := [("user", userDef), ("post", postDef)]

/-! ## DefaultFieldResolver (src/querymate/core/filter.py lines 510-548) -/

/-- One step of `DefaultFieldResolver.resolve`: on a model class, a
relationship segment moves to the related class, a field segment yields the
column; any other segment (including any segment after a column has been
reached) raises `AttributeError` naming the segment. -/
def resolveStep (schema : Schema) (current : ColRef) (part : String) :
    Except PyError ColRef :=
  match current with
  | .relClass m =>
    match lookupModel schema m with
    | Option.none => .error (.keyError m)
    | some md =>
      match lookupRel md part with
      | some r => .ok (.relClass r.1)
      | Option.none =>
        if md.fields.contains part then .ok (.col m part)
        else .error (.attributeError ("Field " ++ part ++ " not found"))
  | _ => .error (.attributeError ("Field " ++ part ++ " not found"))

/-- Split a character list at every occurrence of `c` (no separator merging),
mirroring Python `str.split` with an explicit separator. -/
def splitOnChar (c : Char) : List Char → List (List Char)
  | [] => [[]]
  | ch :: rest =>
    let r := splitOnChar c rest
    if ch = c then [] :: r
    else
      match r with
      | [] => [[ch]]
      | g :: gs => (ch :: g) :: gs

/-- Python `field_path.split(".")`. -/
def pySplitDot (s : String) : List String :=
  (splitOnChar '.' s.toList).map (fun cs => String.mk cs)

/-- `DefaultFieldResolver.resolve`: split the dotted path and walk segments
from the root model class. -/
def resolve (schema : Schema) (model : String) (fieldPath : String) :
    Except PyError ColRef :=
  (pySplitDot fieldPath).foldlM (resolveStep schema) (.relClass model)

/-! ## Predicates (src/querymate/core/filter.py and predicate.py)

Boolean filter expressions. The internal shape of the expressions produced by
the registry predicates other than `is_null` / `is_not_null` / `eq` is
irrelevant to every property below, so those are carried uninterpreted as
`pred name column value`. -/

/-- A boolean SQL expression fragment emitted by the filter layer. -/
inductive SqlExpr where
  | isNull (c : ColRef)
  | isNotNull (c : ColRef)
  | eqVal (c : ColRef) (v : Val)
  | pred (opName : String) (c : ColRef) (v : Val)
  | andGroup (es : List SqlExpr)
  | orGroup (es : List SqlExpr)

/-- Embedding of `IsNullPredicate.apply` (filter.py lines 154-161):
`return column.is_(None)` — the operand `value` is not used. -/
def IsNullPredicate_apply (column : ColRef) (value : Val) : SqlExpr :=
  SqlExpr.isNull column

/-- Embedding of `IsNotNullPredicate.apply` (filter.py lines 163-169):
`return column.is_not(None)` — the operand `value` is not used. -/
def IsNotNullPredicate_apply (column : ColRef) (value : Val) : SqlExpr :=
  SqlExpr.isNotNull column

/-- Embedding of `IsNull.apply` from the legacy predicate.py module (lines
290-313): `field == None` (a NULL test) when `value` is truthy, `field != None`
(a NOT-NULL test) otherwise. -/
def predicate_IsNull_apply (column : ColRef) (value : Bool) : SqlExpr :=
  if value then SqlExpr.isNull column else SqlExpr.isNotNull column

/-- Embedding of `IsNotNull.apply` from the legacy predicate.py module (lines
316-339): `field != None` when `value` is truthy, `field == None` otherwise. -/
def predicate_IsNotNull_apply (column : ColRef) (value : Bool) : SqlExpr :=
  if value then SqlExpr.isNotNull column else SqlExpr.isNull column

/-- `Predicate.registry[op]().apply(column, value)` for the registry of
filter.py: `is_null` and `is_not_null` are the classes embedded above; every
other registered predicate is kept uninterpreted. -/
def predicateApply (op : String) (column : ColRef) (value : Val) : SqlExpr :=
  if op = "is_null" then IsNullPredicate_apply column value
  else if op = "is_not_null" then IsNotNullPredicate_apply column value
  else SqlExpr.pred op column value

/-- C4 counterexample: applying the `is_null` registry predicate (the one the
live `FilterBuilder` path uses, from filter.py) with operand `false` yields the
NULL test `column IS NULL`, not the NOT-NULL test the claim requires, and
`is_not_null` with operand `false` yields the NOT-NULL test, not a NULL test:
the boolean operand is ignored, not inverting. -/
theorem is_null_operand_ignored_counterexample :
    IsNullPredicate_apply (ColRef.col "user" "email") (Val.b false)
      = SqlExpr.isNull (ColRef.col "user" "email") ∧
    SqlExpr.isNull (ColRef.col "user" "email")
      ≠ SqlExpr.isNotNull (ColRef.col "user" "email") ∧
    IsNotNullPredicate_apply (ColRef.col "user" "email") (Val.b false)
      = SqlExpr.isNotNull (ColRef.col "user" "email") ∧
    SqlExpr.isNotNull (ColRef.col "user" "email")
      ≠ SqlExpr.isNull (ColRef.col "user" "email") := by
  refine ⟨rfl, ?_, rfl, ?_⟩
  · intro h
    exact SqlExpr.noConfusion h
  · intro h
    exact SqlExpr.noConfusion h

/-- C4 amended: in the registry used by `FilterBuilder` (filter.py), `is_null`
and `is_not_null` ignore the boolean operand — `is_null` always emits a NULL
test and `is_not_null` always a NOT-NULL test; the boolean-controlled
inversion described by the claim holds only for the `IsNull` / `IsNotNull`
classes of the legacy predicate.py module, where a `false` operand inverts the
test. -/
theorem null_predicates_amended (c : ColRef) (v : Val) (b : Bool) :
    IsNullPredicate_apply c v = SqlExpr.isNull c ∧
    IsNotNullPredicate_apply c v = SqlExpr.isNotNull c ∧
    predicate_IsNull_apply c b
      = (if b then SqlExpr.isNull c else SqlExpr.isNotNull c) ∧
    predicate_IsNotNull_apply c b
      = (if b then SqlExpr.isNotNull c else SqlExpr.isNull c) ∧
    predicate_IsNull_apply c false = SqlExpr.isNotNull c ∧
    predicate_IsNotNull_apply c false = SqlExpr.isNull c :=
  ⟨rfl, rfl, rfl, rfl, rfl, rfl⟩

/-! ## FilterBuilder (src/querymate/core/filter.py lines 556-638) -/

/-- `settings.FILTER_OPERATORS` from src/querymate/core/config.py, in order. -/
def FILTER_OPERATORS : List String :=
  ["eq", "ne", "gt", "lt", "gte", "lte",
   "cont", "starts_with", "ends_with",
   "in", "nin",
   "is_null", "is_not_null",
   "matches", "does_not_match", "matches_any", "matches_all",
   "does_not_match_any", "does_not_match_all",
   "present", "blank",
   "lt_any", "lteq_any", "gt_any", "gteq_any",
   "lt_all", "lteq_all", "gt_all", "gteq_all", "not_eq_all",
   "start", "not_start", "start_any", "start_all",
   "not_start_any", "not_start_all",
   "end", "not_end", "end_any", "end_all", "not_end_any", "not_end_all",
   "i_cont", "i_cont_any", "i_cont_all",
   "not_i_cont", "not_i_cont_any", "not_i_cont_all",
   "true", "false"]

/-- The value attached to a field key in a filter dictionary: either a plain
literal (which implies equality) or an ordered mapping of operator names to
operand values. -/
inductive FilterCond where
  | lit (v : Val)
  | ops (items : List (String × Val))
deriving DecidableEq, Repr

/-- A filter dictionary in spine form: an ordered sequence of entries, each an
`and` key, an `or` key, or a field-path key with its condition. The list of
sub-dictionaries under `and` / `or` is flattened entry-wise, which preserves
the result of `_parse` because `_parse` simply concatenates the per-dictionary
expression lists. -/
inductive FiltersDict where
  | nil
  | consAnd (subs rest : FiltersDict)
  | consOr (subs rest : FiltersDict)
  | consCond (field : String) (cond : FilterCond) (rest : FiltersDict)
deriving DecidableEq, Repr

/-- The inner loop of `FilterBuilder._parse` over one condition mapping:
`for operator, value in condition.items()`: an operator name outside
`settings.FILTER_OPERATORS` raises `ValueError` naming it; otherwise the
registry predicate is applied and collection continues. -/
def parseOps (column : ColRef) : List (String × Val) → Except PyError (List SqlExpr)
  | [] => .ok []
  | (op, v) :: rest =>
    if FILTER_OPERATORS.contains op then do
      let more ← parseOps column rest
      .ok (predicateApply op column v :: more)
    else .error (.valueError ("Unsupported operator: " ++ op))

/-- Embedding of `FilterBuilder._parse` (filter.py lines 600-638): `and` / `or`
entries recurse over their sub-trees and wrap the flattened results in one
`and_(...)` / `or_(...)` expression; any other key is resolved as a field path
and yields either one equality (literal condition) or one expression per
operator entry. -/
def FilterBuilder_parse (schema : Schema) (model : String) :
    FiltersDict → Except PyError (List SqlExpr)
  | .nil => .ok []
  | .consAnd subs rest => do
    let conds ← FilterBuilder_parse schema model subs
    let more ← FilterBuilder_parse schema model rest
    .ok (SqlExpr.andGroup conds :: more)
  | .consOr subs rest => do
    let conds ← FilterBuilder_parse schema model subs
    let more ← FilterBuilder_parse schema model rest
    .ok (SqlExpr.orGroup conds :: more)
  | .consCond field cond rest => do
    let column ← resolve schema model field
    let es ← (match cond with
      | .lit v => Except.ok [SqlExpr.eqVal column v]
      | .ops items => parseOps column items)
    let more ← FilterBuilder_parse schema model rest
    .ok (es ++ more)

/-- `FilterBuilder.build` (filter.py lines 586-598): delegates to `_parse`. -/
def FilterBuilder_build (schema : Schema) (model : String) (d : FiltersDict) :
    Except PyError (List SqlExpr) :=
  FilterBuilder_parse schema model d

/-- The operator names of one condition that are not in the registry list. -/
def condUnsupportedOps : FilterCond → List String
  | .lit _ => []
  | .ops items =>
    (items.map (fun p => p.1)).filter (fun op => !(FILTER_OPERATORS.contains op))

/-- All operator names appearing in a filter dictionary that are not in the
registry list, in traversal order. -/
def unsupportedOps : FiltersDict → List String
  | .nil => []
  | .consAnd subs rest => unsupportedOps subs ++ unsupportedOps rest
  | .consOr subs rest => unsupportedOps subs ++ unsupportedOps rest
  | .consCond _ cond rest => condUnsupportedOps cond ++ unsupportedOps rest

/-- Whether every field path of a filter dictionary resolves on the schema. -/
def allFieldsResolve (schema : Schema) (model : String) : FiltersDict → Bool
  | .nil => true
  | .consAnd subs rest =>
    allFieldsResolve schema model subs && allFieldsResolve schema model rest
  | .consOr subs rest =>
    allFieldsResolve schema model subs && allFieldsResolve schema model rest
  | .consCond field _ rest =>
    (resolve schema model field).isOk && allFieldsResolve schema model rest

theorem ok_bind {ε α β : Type} (a : α) (f : α → Except ε β) :
    (Except.ok a >>= f) = f a := rfl

theorem error_bind {ε α β : Type} (e : ε) (f : α → Except ε β) :
    ((Except.error e : Except ε α) >>= f) = Except.error e := rfl

theorem condUnsupported_cons (op : String) (v : Val) (tl : List (String × Val)) :
    condUnsupportedOps (.ops ((op, v) :: tl)) =
      (if FILTER_OPERATORS.contains op then condUnsupportedOps (.ops tl)
       else op :: condUnsupportedOps (.ops tl)) := by
  simp only [condUnsupportedOps, List.map_cons, List.filter_cons]
  by_cases hc : FILTER_OPERATORS.contains op
  · simp [hc]
  · simp [hc]

theorem parseOps_ok_of_supported (column : ColRef) (items : List (String × Val))
    (h : condUnsupportedOps (.ops items) = []) :
    ∃ es, parseOps column items = .ok es := by
  induction items with
  | nil => exact ⟨[], rfl⟩
  | cons hd tl ih =>
    obtain ⟨o, v⟩ := hd
    rw [condUnsupported_cons] at h
    by_cases hc : FILTER_OPERATORS.contains o
    · rw [if_pos hc] at h
      obtain ⟨es, hes⟩ := ih h
      refine ⟨predicateApply o column v :: es, ?_⟩
      simp only [parseOps]
      rw [if_pos hc, hes]
      rfl
    · rw [if_neg hc] at h
      exact absurd h (by simp)

theorem parseOps_error_of_unsupported (column : ColRef)
    (items : List (String × Val))
    (h : condUnsupportedOps (.ops items) ≠ []) :
    ∃ op, op ∈ condUnsupportedOps (.ops items) ∧
      FILTER_OPERATORS.contains op = false ∧
      parseOps column items = .error (.valueError ("Unsupported operator: " ++ op)) := by
  induction items with
  | nil => simp [condUnsupportedOps] at h
  | cons hd tl ih =>
    obtain ⟨o, v⟩ := hd
    by_cases hc : FILTER_OPERATORS.contains o
    · have htl : condUnsupportedOps (.ops tl) ≠ [] := by
        intro hx
        apply h
        rw [condUnsupported_cons, if_pos hc]
        exact hx
      obtain ⟨op, hmem, hops, herr⟩ := ih htl
      refine ⟨op, ?_, hops, ?_⟩
      · rw [condUnsupported_cons, if_pos hc]
        exact hmem
      · simp only [parseOps]
        rw [if_pos hc, herr]
        rfl
    · refine ⟨o, ?_, ?_, ?_⟩
      · rw [condUnsupported_cons, if_neg hc]
        exact List.mem_cons_self _ _
      · simpa using hc
      · simp only [parseOps]
        rw [if_neg hc]

theorem parse_ok_of_clean (schema : Schema) (model : String) (t : FiltersDict)
    (hres : allFieldsResolve schema model t = true)
    (hops : unsupportedOps t = []) :
    ∃ es, FilterBuilder_parse schema model t = .ok es := by
  induction t with
  | nil => exact ⟨[], rfl⟩
  | consAnd subs rest ihs ihr =>
    simp only [allFieldsResolve, Bool.and_eq_true] at hres
    simp only [unsupportedOps, List.append_eq_nil] at hops
    obtain ⟨es₁, h₁⟩ := ihs hres.1 hops.1
    obtain ⟨es₂, h₂⟩ := ihr hres.2 hops.2
    refine ⟨SqlExpr.andGroup es₁ :: es₂, ?_⟩
    simp only [FilterBuilder_parse]
    rw [h₁]
    simp only [ok_bind]
    rw [h₂]
    rfl
  | consOr subs rest ihs ihr =>
    simp only [allFieldsResolve, Bool.and_eq_true] at hres
    simp only [unsupportedOps, List.append_eq_nil] at hops
    obtain ⟨es₁, h₁⟩ := ihs hres.1 hops.1
    obtain ⟨es₂, h₂⟩ := ihr hres.2 hops.2
    refine ⟨SqlExpr.orGroup es₁ :: es₂, ?_⟩
    simp only [FilterBuilder_parse]
    rw [h₁]
    simp only [ok_bind]
    rw [h₂]
    rfl
  | consCond field cond rest ihr =>
    simp only [allFieldsResolve, Bool.and_eq_true] at hres
    simp only [unsupportedOps, List.append_eq_nil] at hops
    obtain ⟨column, hcol⟩ : ∃ c, resolve schema model field = .ok c := by
      rcases hx : resolve schema model field with e | c
      · rw [hx] at hres
        simp [Except.isOk, Except.toBool] at hres
      · exact ⟨c, rfl⟩
    obtain ⟨es₂, h₂⟩ := ihr hres.2 hops.2
    match cond, hops.1 with
    | .lit v, _ =>
      refine ⟨[SqlExpr.eqVal column v] ++ es₂, ?_⟩
      simp only [FilterBuilder_parse]
      rw [hcol]
      simp only [ok_bind]
      rw [h₂]
      rfl
    | .ops items, hclean =>
      obtain ⟨es₁, h₁⟩ := parseOps_ok_of_supported column items hclean
      refine ⟨es₁ ++ es₂, ?_⟩
      simp only [FilterBuilder_parse]
      rw [hcol]
      simp only [ok_bind]
      rw [h₁]
      simp only [ok_bind]
      rw [h₂]
      rfl

/-- C5: for every filter tree containing a condition whose operator name is
not in the registry (and whose field paths resolve), `FilterBuilder.build`
fails with an unsupported-operator `ValueError` naming an offending operator
of the tree — the result is an error, so zero expressions reach the caller.
In particular the spec example `\x7b"name": \x7b"bogus_op": "x"\x7d\x7d` fails
naming `bogus_op`. -/
theorem unsupported_operator_rejected (schema : Schema) (model : String)
    (t : FiltersDict) (hbad : unsupportedOps t ≠ [])
    (hres : allFieldsResolve schema model t = true) :
    (∃ op, op ∈ unsupportedOps t ∧ FILTER_OPERATORS.contains op = false ∧
      FilterBuilder_build schema model t
        = .error (.valueError ("Unsupported operator: " ++ op))) ∧
    FilterBuilder_build testSchema "user"
        (.consCond "name" (.ops [("bogus_op", Val.s "x")]) .nil)
      = .error (.valueError "Unsupported operator: bogus_op") := by
  refine ⟨?_, by rfl⟩
  induction t with
  | nil => exact absurd rfl hbad
  | consAnd subs rest ihs ihr =>
    simp only [allFieldsResolve, Bool.and_eq_true] at hres
    by_cases hs : unsupportedOps subs = []
    · have hrest : unsupportedOps rest ≠ [] := by
        intro hx
        apply hbad
        simp [unsupportedOps, hs, hx]
      obtain ⟨es₁, h₁⟩ := parse_ok_of_clean schema model subs hres.1 hs
      obtain ⟨op, hmem, hcf, herr⟩ := ihr hrest hres.2
      refine ⟨op, ?_, hcf, ?_⟩
      · simp only [unsupportedOps]
        exact List.mem_append_right _ hmem
      · simp only [FilterBuilder_build, FilterBuilder_parse] at herr ⊢
        rw [h₁]
        simp only [ok_bind]
        rw [herr]
        rfl
    · obtain ⟨op, hmem, hcf, herr⟩ := ihs hs hres.1
      refine ⟨op, ?_, hcf, ?_⟩
      · simp only [unsupportedOps]
        exact List.mem_append_left _ hmem
      · simp only [FilterBuilder_build, FilterBuilder_parse] at herr ⊢
        rw [herr]
        rfl
  | consOr subs rest ihs ihr =>
    simp only [allFieldsResolve, Bool.and_eq_true] at hres
    by_cases hs : unsupportedOps subs = []
    · have hrest : unsupportedOps rest ≠ [] := by
        intro hx
        apply hbad
        simp [unsupportedOps, hs, hx]
      obtain ⟨es₁, h₁⟩ := parse_ok_of_clean schema model subs hres.1 hs
      obtain ⟨op, hmem, hcf, herr⟩ := ihr hrest hres.2
      refine ⟨op, ?_, hcf, ?_⟩
      · simp only [unsupportedOps]
        exact List.mem_append_right _ hmem
      · simp only [FilterBuilder_build, FilterBuilder_parse] at herr ⊢
        rw [h₁]
        simp only [ok_bind]
        rw [herr]
        rfl
    · obtain ⟨op, hmem, hcf, herr⟩ := ihs hs hres.1
      refine ⟨op, ?_, hcf, ?_⟩
      · simp only [unsupportedOps]
        exact List.mem_append_left _ hmem
      · simp only [FilterBuilder_build, FilterBuilder_parse] at herr ⊢
        rw [herr]
        rfl
  | consCond field cond rest ihr =>
    simp only [allFieldsResolve, Bool.and_eq_true] at hres
    obtain ⟨column, hcol⟩ : ∃ c, resolve schema model field = .ok c := by
      rcases hx : resolve schema model field with e | c
      · rw [hx] at hres
        simp [Except.isOk, Except.toBool] at hres
      · exact ⟨c, rfl⟩
    rcases cond with v | items
    · have hrest : unsupportedOps rest ≠ [] := by
        intro hx
        apply hbad
        simp [unsupportedOps, condUnsupportedOps, hx]
      obtain ⟨op, hmem, hcf, herr⟩ := ihr hrest hres.2
      refine ⟨op, ?_, hcf, ?_⟩
      · simp only [unsupportedOps, condUnsupportedOps, List.nil_append]
        exact hmem
      · simp only [FilterBuilder_build, FilterBuilder_parse] at herr ⊢
        rw [hcol]
        simp only [ok_bind]
        rw [herr]
        rfl
    · by_cases hcnd : condUnsupportedOps (.ops items) = []
      · have hrest : unsupportedOps rest ≠ [] := by
          intro hx
          apply hbad
          simp [unsupportedOps, hcnd, hx]
        obtain ⟨es₁, h₁⟩ := parseOps_ok_of_supported column items hcnd
        obtain ⟨op, hmem, hcf, herr⟩ := ihr hrest hres.2
        refine ⟨op, ?_, hcf, ?_⟩
        · simp only [unsupportedOps]
          exact List.mem_append_right _ hmem
        · simp only [FilterBuilder_build, FilterBuilder_parse] at herr ⊢
          rw [hcol]
          simp only [ok_bind]
          rw [h₁]
          simp only [ok_bind]
          rw [herr]
          rfl
      · obtain ⟨op, hmem, hcf, herr⟩ := parseOps_error_of_unsupported column items hcnd
        refine ⟨op, ?_, hcf, ?_⟩
        · simp only [unsupportedOps]
          exact List.mem_append_left _ hmem
        · simp only [FilterBuilder_build, FilterBuilder_parse]
          rw [hcol]
          simp only [ok_bind]
          rw [herr]
          rfl

/-- Witness for C5 at the spec example on the test schema: the filter
`\x7b"name": \x7b"bogus_op": "x"\x7d\x7d` has an unsupported operator, its
field resolves, and `build` fails naming `bogus_op`. -/
theorem unsupported_operator_rejected_witness :
    (unsupportedOps (.consCond "name" (.ops [("bogus_op", Val.s "x")]) .nil) ≠ [] ∧
     allFieldsResolve testSchema "user"
        (.consCond "name" (.ops [("bogus_op", Val.s "x")]) .nil) = true) ∧
    ((∃ op, op ∈ unsupportedOps
          (.consCond "name" (.ops [("bogus_op", Val.s "x")]) .nil) ∧
        FILTER_OPERATORS.contains op = false ∧
        FilterBuilder_build testSchema "user"
            (.consCond "name" (.ops [("bogus_op", Val.s "x")]) .nil)
          = .error (.valueError ("Unsupported operator: " ++ op))) ∧
      FilterBuilder_build testSchema "user"
          (.consCond "name" (.ops [("bogus_op", Val.s "x")]) .nil)
        = .error (.valueError "Unsupported operator: bogus_op")) :=
  ⟨⟨by decide, by rfl⟩,
    unsupported_operator_rejected testSchema "user"
      (.consCond "name" (.ops [("bogus_op", Val.s "x")]) .nil)
      (by decide) (by rfl)⟩

/-! ## QueryBuilder._select (src/querymate/core/query_builder.py lines 89-151)

A selection list in spine form: an ordered sequence of entries, each a scalar
field name or a single-key relation mapping with its nested selection. A
multi-key relation dictionary behaves exactly like consecutive single-key
entries, since `_select` (and `reconstruct_object`) iterate `dict.items()`
entry-wise. -/

/-- A selection list (`list[str | dict[str, list[str]]]`) in spine form. -/
inductive SelList where
  | nil
  | consField (name : String) (rest : SelList)
  | consRel (name : String) (sub : SelList) (rest : SelList)
deriving DecidableEq, Repr

/-- The scalar entries of a selection, deduplicated keeping the first
occurrence — the same result as the source loop `if field not in model_fields:
model_fields.append(field)`. -/
def selStrings : SelList → List String
  | .nil => []
  | .consField name rest => name :: (selStrings rest).filter (fun f => !(f == name))
  | .consRel _ _ rest => selStrings rest

/-- The relation entries of a selection, in order. -/
def selRelsOf : SelList → List (String × SelList)
  | .nil => []
  | .consField _ rest => selRelsOf rest
  | .consRel name sub rest => (name, sub) :: selRelsOf rest

/-- Python `sorted` on field names (lexicographic); the insertion sort agrees
with `sorted` on every list of distinct names. -/
def sortStrings (l : List String) : List String :=
  l.insertionSort (fun a b => a ≤ b)

/-- The wildcard rule of `_select` (lines 119-120): if `"*"` appears among the
scalar entries, the scalar list is replaced by all model fields sorted. -/
def starExpand (md : ModelDef) (names : List String) : List String :=
  if names.contains "*" then sortStrings md.fields else names

/-- `getattr(model, field)` for the scalar loop of `_select` (lines 122-127):
a model field yields its column, a relationship name yields the relationship
attribute, anything else raises `AttributeError` (the source logs a warning
first, then `getattr` raises). -/
def getattrColumn (model : String) (md : ModelDef) (field : String) :
    Except PyError ColRef :=
  if md.fields.contains field then .ok (.col model field)
  else if (lookupRel md field).isSome then .ok (.relAttr model field)
  else .error (.attributeError field)

mutual
/-- Embedding of `QueryBuilder._select`: partition the entries into scalar
names (deduplicated) and relation maps; apply the wildcard rule; emit one
column per scalar name; then process relation entries in order, each
contributing its nested columns, its nested joins, and finally one join for
the relationship itself. -/
def QueryBuilder_select (schema : Schema) (model : String) (fields : SelList) :
    Except PyError (List ColRef × List (String × String)) :=
  match lookupModel schema model with
  | Option.none => .error (.keyError model)
  | some md => do
    let sc ← (starExpand md (selStrings fields)).mapM (getattrColumn model md)
    let rels ← selectRels schema model md fields
    .ok (sc ++ rels.1, rels.2)
termination_by (sizeOf fields, 1)

/-- The relation loop of `_select` (lines 130-150): an unknown relation name
logs a warning and is skipped; a known one recurses into the related model
with the nested selection, then appends the join edge for itself. -/
def selectRels (schema : Schema) (model : String) (md : ModelDef)
    (fields : SelList) : Except PyError (List ColRef × List (String × String)) :=
  match fields with
  | .nil => .ok ([], [])
  | .consField _ rest => selectRels schema model md rest
  | .consRel name sub rest =>
    match lookupRel md name with
    | Option.none => selectRels schema model md rest
    | some (target, _uselist) => do
      let nested ← QueryBuilder_select schema target sub
      let rels ← selectRels schema model md rest
      .ok (nested.1 ++ rels.1, nested.2 ++ [(model, name)] ++ rels.2)
termination_by (sizeOf fields, 0)
end

theorem selectRels_of_no_rels (schema : Schema) (model : String) (md : ModelDef)
    (f : SelList) (h : selRelsOf f = []) :
    selectRels schema model md f = .ok ([], []) := by
  induction f with
  | nil => simp [selectRels]
  | consField n rest ih =>
    simp only [selRelsOf] at h
    simp only [selectRels]
    exact ih h
  | consRel n sub rest ihsub ihrest => simp [selRelsOf] at h

theorem selectRels_congr (schema : Schema) (model : String) (md : ModelDef) :
    ∀ f f' : SelList, selRelsOf f = selRelsOf f' →
      selectRels schema model md f = selectRels schema model md f' := by
  intro f
  induction f with
  | nil =>
    intro f' h
    rw [selectRels_of_no_rels schema model md f' (by rw [← h]; rfl)]
    simp [selectRels]
  | consField name rest ih =>
    intro f' h
    simp only [selectRels]
    exact ih f' h
  | consRel name sub rest ihsub ihrest =>
    intro f' h
    induction f' with
    | nil => simp [selRelsOf] at h
    | consField n2 r2 ih2 =>
      have h2 : selRelsOf (SelList.consRel name sub rest) = selRelsOf r2 := by
        simpa [selRelsOf] using h
      rw [ih2 h2]
      simp [selectRels]
    | consRel n2 sub2 r2 ihsub2 ihrest2 =>
      simp only [selRelsOf, List.cons.injEq, Prod.mk.injEq] at h
      obtain ⟨⟨h1, h2⟩, h3⟩ := h
      subst h1
      subst h2
      simp only [selectRels]
      rw [ihrest r2 h3]

/-- C6: for every entity and every selection containing `"*"`, the scalar part
of `_select` is exactly the full model field list sorted lexicographically
(a sorted permutation of the model fields), each turned into its column, and
the whole `_select` result does not depend on which other scalar names appear
alongside `"*"` (given the same relation entries). -/
theorem wildcard_expansion (schema : Schema) (model : String) (md : ModelDef)
    (fields fields' : SelList)
    (hmd : lookupModel schema model = some md)
    (hstar : (selStrings fields).contains "*" = true)
    (hstar' : (selStrings fields').contains "*" = true)
    (hrels : selRelsOf fields = selRelsOf fields') :
    starExpand md (selStrings fields) = sortStrings md.fields ∧
    (sortStrings md.fields).Perm md.fields ∧
    List.Sorted (fun a b : String => a ≤ b) (sortStrings md.fields) ∧
    (starExpand md (selStrings fields)).mapM (getattrColumn model md)
      = .ok ((sortStrings md.fields).map (ColRef.col model)) ∧
    QueryBuilder_select schema model fields
      = QueryBuilder_select schema model fields' := by
  have e1 : starExpand md (selStrings fields) = sortStrings md.fields := by
    simp only [starExpand, hstar, if_pos]
  have e1' : starExpand md (selStrings fields') = sortStrings md.fields := by
    simp only [starExpand, hstar', if_pos]
  have hmapM : ∀ names : List String,
      (∀ n ∈ names, md.fields.contains n = true) →
      names.mapM (getattrColumn model md)
        = .ok (names.map (ColRef.col model)) := by
    intro names
    induction names with
    | nil => intro _; rfl
    | cons hd tl ih =>
      intro hall
      have hhd : md.fields.contains hd = true := hall hd (List.mem_cons_self _ _)
      have htl := ih (fun n hn => hall n (List.mem_cons_of_mem _ hn))
      simp only [List.mapM_cons, getattrColumn, hhd, if_pos]
      rw [htl]
      rfl
  have hsortmem : ∀ n ∈ sortStrings md.fields, md.fields.contains n = true := by
    intro n hn
    have : n ∈ md.fields := (List.perm_insertionSort _ md.fields).mem_iff.mp hn
    simpa using this
  refine ⟨e1, List.perm_insertionSort _ md.fields,
    List.sorted_insertionSort _ md.fields, ?_, ?_⟩
  · rw [e1]
    exact hmapM _ hsortmem
  · simp only [QueryBuilder_select, hmd]
    rw [e1, e1', selectRels_congr schema model md fields fields' hrels]

/-- Witness for C6: on the `User` model, selecting `["*", "name"]` and
`["*"]` yield the same plan, with scalar columns exactly the sorted field
list. -/
theorem wildcard_expansion_witness :
    (lookupModel testSchema "user" = some userDef ∧
     (selStrings (.consField "*" (.consField "name" .nil))).contains "*" = true ∧
     (selStrings (.consField "*" .nil)).contains "*" = true ∧
     selRelsOf (.consField "*" (.consField "name" .nil))
       = selRelsOf (.consField "*" .nil)) ∧
    (starExpand userDef (selStrings (.consField "*" (.consField "name" .nil)))
        = sortStrings userDef.fields ∧
     (sortStrings userDef.fields).Perm userDef.fields ∧
     List.Sorted (fun a b : String => a ≤ b) (sortStrings userDef.fields) ∧
     (starExpand userDef
         (selStrings (.consField "*" (.consField "name" .nil)))).mapM
         (getattrColumn "user" userDef)
       = .ok ((sortStrings userDef.fields).map (ColRef.col "user")) ∧
     QueryBuilder_select testSchema "user" (.consField "*" (.consField "name" .nil))
       = QueryBuilder_select testSchema "user" (.consField "*" .nil)) :=
  ⟨⟨rfl, by decide, by decide, rfl⟩,
    wildcard_expansion testSchema "user" userDef
      (.consField "*" (.consField "name" .nil)) (.consField "*" .nil)
      rfl (by decide) (by decide) rfl⟩

/-! ## QueryBuilder.apply_sort (src/querymate/core/query_builder.py lines 207-256) -/

/-- One entry of the `sort` parameter: a (possibly signed) field-path string,
or a custom-value-order mapping `\x7bfield: [v1, v2, ...]\x7d`. -/
inductive SortParam where
  | str (s : String)
  | valueMap (field : String) (values : List Val)
deriving DecidableEq, Repr

/-- An ORDER BY expression. -/
inductive OrderExpr where
  | asc (c : ColRef)
  | desc (c : ColRef)
deriving DecidableEq, Repr

/-- The sign handling of `apply_sort`: `sort_param.startswith("-")` strips the
sign and sorts descending, `"+"` strips and sorts ascending, otherwise the
whole string is the field, ascending. -/
def sortDirection (s : String) : String × Bool :=
  match s.toList with
  | '-' :: rest => (String.mk rest, true)
  | '+' :: rest => (String.mk rest, false)
  | _ => (s, false)

/-- The nested-path walk of `apply_sort` (lines 240-248): every part but the
last moves through `getattr(current_entity, part).property.mapper.class_`
(raising `AttributeError` for a missing attribute, or for `.mapper` on a
scalar column), and the last part is the ORDER BY target. -/
def sortPathResolve (schema : Schema) (model : String) :
    List String → Except PyError ColRef
  | [] => .error (.attributeError "")
  | [part] =>
    match lookupModel schema model with
    | Option.none => .error (.keyError model)
    | some md =>
      if md.fields.contains part then .ok (.col model part)
      else if (lookupRel md part).isSome then .ok (.relAttr model part)
      else .error (.attributeError part)
  | part :: rest =>
    match lookupModel schema model with
    | Option.none => .error (.keyError model)
    | some md =>
      match lookupRel md part with
      | some (target, _uselist) => sortPathResolve schema target rest
      | Option.none =>
        if md.fields.contains part then .error (.attributeError "mapper")
        else .error (.attributeError part)

/-- Embedding of `QueryBuilder.apply_sort`: each entry is first subjected to
`sort_param.startswith("-")`; a mapping entry is a `dict`, which has no
`startswith` attribute, so that call raises `AttributeError` immediately; a
string entry resolves its (possibly nested) field path and appends one
ascending or descending ORDER BY expression. -/
def QueryBuilder_apply_sort (schema : Schema) (model : String) :
    List SortParam → Except PyError (List OrderExpr)
  | [] => .ok []
  | .str s :: rest => do
    let sd := sortDirection s
    let col ← sortPathResolve schema model (pySplitDot sd.1)
    let more ← QueryBuilder_apply_sort schema model rest
    .ok ((if sd.2 then OrderExpr.desc col else OrderExpr.asc col) :: more)
  | .valueMap _ _ :: _ => .error (.attributeError "startswith")

/-- C7 (code bug): string sort entries work — `"-age"` sorts by `age`
descending and `"posts.title"` resolves through the relationship — but a
custom-value-order mapping entry `\x7b"name": ["Zoe", "Alice", "Bob"]\x7d`,
which the spec (and the repo's own test `test_sort_with_custom_value_order`)
requires to become a rank-assigning conditional ORDER BY expression, instead
raises `AttributeError` at `sort_param.startswith("-")`, because a `dict` has
no `startswith` attribute. -/
theorem apply_sort_value_map_bug :
    QueryBuilder_apply_sort testSchema "user" [.str "-age"]
      = .ok [OrderExpr.desc (ColRef.col "user" "age")] ∧
    QueryBuilder_apply_sort testSchema "user" [.str "posts.title"]
      = .ok [OrderExpr.asc (ColRef.col "post" "title")] ∧
    QueryBuilder_apply_sort testSchema "user"
        [.valueMap "name" [Val.s "Zoe", Val.s "Alice", Val.s "Bob"]]
      = .error (.attributeError "startswith") :=
  ⟨rfl, rfl, rfl⟩

/-! ## Row reconstruction (query_builder.py lines 429-532)

A reconstructed model instance: its class, the scalar keyword arguments it
was constructed with, and its relationship attributes. Relationship values are
stored with their `uselist` flag; a to-many relationship holds the list set by
`setattr(obj, name, rel_objs)`, a to-one relationship holds `rel_objs[0]` as a
one-element list (or the empty list for `None`). The lists are in spine form
(`ObjList`) so that structural equality — Python's pydantic field-wise
`__eq__`, which the merge's `not in` test uses — is decidable. -/

mutual
/-- A reconstructed model instance. -/
inductive Obj where
  | mk (model : String) (scalars : List (String × Val)) (rels : RelList)
/-- The relationship attributes of a reconstructed instance. -/
inductive RelList where
  | nil
  | cons (name : String) (uselist : Bool) (objs : ObjList) (rest : RelList)
/-- A list of reconstructed instances, in spine form. -/
inductive ObjList where
  | nil
  | cons (o : Obj) (rest : ObjList)
end
deriving instance DecidableEq for Obj, RelList, ObjList

/-- The class of a reconstructed instance. -/
def Obj.modelName : Obj → String
  | .mk m _ _ => m

/-- The scalar fields of a reconstructed instance. -/
def Obj.scalars : Obj → List (String × Val)
  | .mk _ s _ => s

/-- The relationship attributes of a reconstructed instance. -/
def Obj.rels : Obj → RelList
  | .mk _ _ r => r

/-- `getattr(obj, field)` for a scalar field. -/
def Obj.getScalar (o : Obj) (field : String) : Option Val :=
  ((Obj.scalars o).find? (fun p => p.1 == field)).map (fun p => p.2)

/-- `getattr(obj, name)` for a relationship attribute. -/
def RelList.lookup (name : String) : RelList → Option (Bool × ObjList)
  | .nil => Option.none
  | .cons n u objs rest =>
    if n == name then some (u, objs) else RelList.lookup name rest

/-- `setattr(obj, name, value)` on the first relationship entry named `name`. -/
def RelList.set (name : String) (objs : ObjList) : RelList → RelList
  | .nil => .nil
  | .cons n u o rest =>
    if n == name then .cons n u objs rest else .cons n u o (RelList.set name objs rest)

/-- Replace the relationship value `name` of an instance (the in-place
`existing_rels.append` mutations of the merge, viewed functionally). -/
def Obj.setRel (o : Obj) (name : String) (objs : ObjList) : Obj :=
  match o with
  | .mk m s r => .mk m s (RelList.set name objs r)

/-- Spine-to-list view. -/
def ObjList.toList : ObjList → List Obj
  | .nil => []
  | .cons o rest => o :: ObjList.toList rest

/-- List-to-spine view. -/
def ObjList.ofList : List Obj → ObjList
  | [] => .nil
  | o :: rest => .cons o (ObjList.ofList rest)

/-- Append one instance at the end (`list.append`). -/
def ObjList.push (x : Obj) : ObjList → ObjList
  | .nil => .cons x .nil
  | .cons o rest => .cons o (ObjList.push x rest)

/-- Python `x in list` under pydantic field-wise equality. -/
def ObjList.containsObj (x : Obj) : ObjList → Bool
  | .nil => false
  | .cons o rest => (decide (o = x)) || ObjList.containsObj x rest

/-- The merge inner loop (query_builder.py lines 461-464):
`for new_rel in new_rels: if new_rel not in existing_rels:
existing_rels.append(new_rel)`. The membership test sees the list as already
extended by earlier appends. -/
def mergeList (existing : ObjList) : ObjList → ObjList
  | .nil => existing
  | .cons x rest =>
    mergeList (if ObjList.containsObj x existing then existing
               else ObjList.push x existing) rest

/-- The relation names of the dictionary entries of a selection, in order
(the names the merge loop `for relation_name in self.select: if isinstance(
relation_name, dict)` iterates). -/
def dictNames : SelList → List String
  | .nil => []
  | .consField _ rest => dictNames rest
  | .consRel name _ rest => name :: dictNames rest

/-- The merge step of `reconstruct_objects` (lines 453-464) applied when a
row's root primary key matches an existing object: for each dictionary entry
of the selection, append the new row's related objects not already present to
the existing object's collection. Python iterates and appends on the
relationship value; on a to-one relationship that value is a model instance or
`None`, not a list, and the iteration/`append` raises — embedded as an
error. -/
def mergeInto (select : SelList) (existing newObj : Obj) : Except PyError Obj :=
  match select with
  | .nil => .ok existing
  | .consField _ rest => mergeInto rest existing newObj
  | .consRel name _sub rest =>
    match RelList.lookup name (Obj.rels existing),
        RelList.lookup name (Obj.rels newObj) with
    | some (exU, exList), some (newU, newList) =>
      if exU && newU then
        mergeInto rest (Obj.setRel existing name (mergeList exList newList)) newObj
      else .error (.typeError name)
    | _, _ => .error (.attributeError name)

/-- `model(**obj_kwargs)` relationship assignment (lines 523-532): a to-many
relationship receives the accumulated list, a to-one relationship receives
`rel_objs[0] if rel_objs else None`. -/
def buildRels (md : ModelDef) : List (String × List Obj) → Except PyError RelList
  | [] => .ok .nil
  | (name, objs) :: rest =>
    match lookupRel md name with
    | Option.none => .error (.keyError name)
    | some (_target, uselist) => do
      let r ← buildRels md rest
      if uselist then .ok (.cons name true (ObjList.ofList objs) r)
      else .ok (.cons name false
        (match objs with
         | [] => ObjList.nil
         | x :: _ => ObjList.cons x ObjList.nil) r)

/-- `related_objs.setdefault(relation_name, []).append(related_obj)` merged
with the accumulation of the remaining (later) entries: the current object goes
in front of the values accumulated later under the same key, and the key takes
the current (earlier) position. -/
def addRelated (name : String) (obj : Obj) (rs : List (String × List Obj)) :
    List (String × List Obj) :=
  (name, obj :: (match rs.find? (fun p => p.1 == name) with
    | some p => p.2
    | Option.none => [])) :: rs.filter (fun p => !(p.1 == name))

/-- The field-consuming walk of `reconstruct_object` (lines 502-521): scalar
entries consume one row slot each into `obj_kwargs`; relation entries
recursively build one related instance (consuming its sub-selection's slots
through the shared cursor) and accumulate it under the relation name. The
related instance is completed in place exactly as the recursive
`reconstruct_object` call does: keyword arguments plus relationship assignment
by cardinality. -/
def reconstructFields (schema : Schema) (md : ModelDef) :
    SelList → List Val → Nat →
    Except PyError (List (String × Val) × List (String × List Obj) × Nat)
  | .nil, _, idx => .ok ([], [], idx)
  | .consField name rest, row, idx =>
    match row.get? idx with
    | Option.none => .error (.indexError "tuple index out of range")
    | some v => do
      let r ← reconstructFields schema md rest row (idx + 1)
      .ok ((name, v) :: r.1, r.2.1, r.2.2)
  | .consRel name sub rest, row, idx =>
    match lookupRel md name with
    | Option.none => .error (.keyError name)
    | some (target, _uselist) =>
      match lookupModel schema target with
      | Option.none => .error (.keyError target)
      | some subMd => do
        let subR ← reconstructFields schema subMd sub row idx
        let subRels ← buildRels subMd subR.2.1
        let relObj := Obj.mk target subR.1 subRels
        let r ← reconstructFields schema md rest row subR.2.2
        .ok (r.1, addRelated name relObj r.2.1, r.2.2)

/-- Embedding of `QueryBuilder.reconstruct_object` (lines 482-532). -/
def reconstruct_object (schema : Schema) (model : String) (fields : SelList)
    (row : List Val) (idx : Nat) : Except PyError (Obj × Nat) :=
  match lookupModel schema model with
  | Option.none => .error (.keyError model)
  | some md => do
    let r ← reconstructFields schema md fields row idx
    let rels ← buildRels md r.2.1
    .ok (Obj.mk model r.1 rels, r.2.2)

/-- Replace the object stored under `key` (the in-place relationship merge on
the object already held by the `reconstructed` dictionary). -/
def setAssoc (acc : List (Val × Obj)) (key : Val) (v : Obj) : List (Val × Obj) :=
  acc.map (fun p => if p.1 == key then (key, v) else p)

/-- The row loop of `reconstruct_objects` (lines 446-467): reconstruct each
row starting at cursor 0, read the root primary key, and either merge into the
already-built object with that key or append a new dictionary entry. -/
def reconstructLoop (schema : Schema) (model : String) (pk : String)
    (select : SelList) : List (List Val) → List (Val × Obj) →
    Except PyError (List (Val × Obj))
  | [], acc => .ok acc
  | row :: rest, acc => do
    let r ← reconstruct_object schema model select row 0
    match Obj.getScalar r.1 pk with
    | Option.none => .error (.attributeError pk)
    | some objId =>
      match acc.find? (fun p => p.1 == objId) with
      | some p => do
        let merged ← mergeInto select p.2 r.1
        reconstructLoop schema model pk select rest (setAssoc acc objId merged)
      | Option.none =>
        reconstructLoop schema model pk select rest (acc ++ [(objId, r.1)])

/-- Embedding of `QueryBuilder.reconstruct_objects` (lines 429-469): the final
list is the dictionary's values in first-seen root order. -/
def reconstruct_objects (schema : Schema) (model : String) (select : SelList)
    (rows : List (List Val)) : Except PyError (List Obj) :=
  match lookupModel schema model with
  | Option.none => .error (.keyError model)
  | some md => do
    let acc ← reconstructLoop schema model md.pk select rows []
    .ok (acc.map (fun p => p.2))

/-- The selection `["id", "name", \x7b"posts": ["id", "title"]\x7d]`. -/
def selUserPosts : SelList :=
  .consField "id" (.consField "name"
    (.consRel "posts" (.consField "id" (.consField "title" .nil)) .nil))

/-- C2: reconstructing the two one-to-many join rows `(1, "John", 1, "Post 1")`
and `(1, "John", 2, "Post 2")` under the selection
`["id", "name", \x7b"posts": ["id", "title"]\x7d]` yields exactly one root
object — `id = 1`, `name = "John"`, with both posts accumulated into its one
`posts` collection — not two objects. -/
theorem reconstruction_roundtrip :
    reconstruct_objects testSchema "user" selUserPosts
        [[Val.i 1, Val.s "John", Val.i 1, Val.s "Post 1"],
         [Val.i 1, Val.s "John", Val.i 2, Val.s "Post 2"]]
      = .ok [Obj.mk "user" [("id", Val.i 1), ("name", Val.s "John")]
          (RelList.cons "posts" true
            (ObjList.cons
              (Obj.mk "post" [("id", Val.i 1), ("title", Val.s "Post 1")] .nil)
              (ObjList.cons
                (Obj.mk "post" [("id", Val.i 2), ("title", Val.s "Post 2")] .nil)
                .nil))
            .nil)] := by
  rfl

/-- Induction over the object-list spine alone (the mutual recursor with the
other motives trivialised). -/
theorem objListInduction {motive : ObjList → Prop}
    (nil : motive .nil)
    (cons : ∀ o rest, motive rest → motive (.cons o rest)) :
    ∀ l, motive l :=
  @ObjList.rec (fun _ => True) (fun _ => True) motive
    (fun _ _ _ _ => trivial)
    trivial
    (fun _ _ _ _ _ _ => trivial)
    nil
    (fun o rest _ hrest => cons o rest hrest)

/-- Induction over the relationship-list spine alone. -/
theorem relListInduction {motive : RelList → Prop}
    (nil : motive .nil)
    (cons : ∀ name uselist objs rest, motive rest →
      motive (.cons name uselist objs rest)) :
    ∀ l, motive l :=
  @RelList.rec (fun _ => True) motive (fun _ => True)
    (fun _ _ _ _ => trivial)
    nil
    (fun n u o r _ hr => cons n u o r hr)
    trivial
    (fun _ _ _ _ => trivial)

theorem push_toList (x : Obj) (l : ObjList) :
    ObjList.toList (ObjList.push x l) = ObjList.toList l ++ [x] := by
  induction l using objListInduction with
  | nil => rfl
  | cons o rest ih => simp [ObjList.push, ObjList.toList, ih]

theorem containsObj_iff (x : Obj) (l : ObjList) :
    ObjList.containsObj x l = true ↔ x ∈ ObjList.toList l := by
  induction l using objListInduction with
  | nil => simp [ObjList.containsObj, ObjList.toList]
  | cons o rest ih =>
    simp only [ObjList.containsObj, ObjList.toList, Bool.or_eq_true,
      decide_eq_true_eq, List.mem_cons, ih]
    constructor
    · rintro (rfl | h)
      · exact Or.inl rfl
      · exact Or.inr h
    · rintro (rfl | h)
      · exact Or.inl rfl
      · exact Or.inr h

theorem mergeList_decomp (new : ObjList) : ∀ ex : ObjList, ∃ tail : List Obj,
    ObjList.toList (mergeList ex new) = ObjList.toList ex ++ tail ∧
    ∀ x ∈ tail, x ∈ ObjList.toList new ∧ x ∉ ObjList.toList ex := by
  induction new using objListInduction with
  | nil =>
    intro ex
    exact ⟨[], by simp [mergeList], by simp⟩
  | cons x rest ih =>
    intro ex
    simp only [mergeList]
    by_cases hc : ObjList.containsObj x ex = true
    · rw [if_pos hc]
      obtain ⟨tail, h1, h2⟩ := ih ex
      refine ⟨tail, h1, fun y hy => ⟨?_, (h2 y hy).2⟩⟩
      simp only [ObjList.toList, List.mem_cons]
      exact Or.inr (h2 y hy).1
    · rw [if_neg hc]
      obtain ⟨tail, h1, h2⟩ := ih (ObjList.push x ex)
      refine ⟨x :: tail, ?_, ?_⟩
      · rw [h1, push_toList]
        simp
      · intro y hy
        rcases List.mem_cons.mp hy with rfl | hy'
        · refine ⟨by simp [ObjList.toList], fun hmem => hc ?_⟩
          exact (containsObj_iff _ _).mpr hmem
        · have h3 := h2 y hy'
          refine ⟨?_, fun hmem => h3.2 ?_⟩
          · simp only [ObjList.toList, List.mem_cons]
            exact Or.inr h3.1
          · rw [push_toList]
            exact List.mem_append_left _ hmem

theorem set_lookup_same (name : String) (objs : ObjList) (r : RelList)
    (u : Bool) (old : ObjList) (h : RelList.lookup name r = some (u, old)) :
    RelList.lookup name (RelList.set name objs r) = some (u, objs) := by
  induction r using relListInduction with
  | nil => simp [RelList.lookup] at h
  | cons n u2 o rest ih =>
    by_cases hn : (n == name) = true
    · simp only [RelList.lookup] at h
      rw [if_pos hn] at h
      injection h with hh
      cases hh
      simp only [RelList.set]
      rw [if_pos hn]
      simp only [RelList.lookup]
      rw [if_pos hn]
    · simp only [RelList.lookup] at h
      rw [if_neg hn] at h
      simp only [RelList.set]
      rw [if_neg hn]
      simp only [RelList.lookup]
      rw [if_neg hn]
      exact ih h

theorem set_lookup_ne (name name2 : String) (objs : ObjList) (r : RelList)
    (h : name2 ≠ name) :
    RelList.lookup name2 (RelList.set name objs r) = RelList.lookup name2 r := by
  induction r using relListInduction with
  | nil => rfl
  | cons n u o rest ih =>
    by_cases hn : (n == name) = true
    · have hn2 : ¬ (n == name2) = true := by
        have hcur : n = name := by simpa using hn
        subst hcur
        intro hx
        exact h (by simpa using hx : n = name2).symm
      simp only [RelList.set]
      rw [if_pos hn]
      simp only [RelList.lookup]
      rw [if_neg hn2, if_neg hn2]
    · simp only [RelList.set]
      rw [if_neg hn]
      simp only [RelList.lookup]
      by_cases hn2 : (n == name2) = true
      · rw [if_pos hn2, if_pos hn2]
      · rw [if_neg hn2, if_neg hn2]
        exact ih

theorem rels_setRel (o : Obj) (name : String) (v : ObjList) :
    Obj.rels (Obj.setRel o name v) = RelList.set name v (Obj.rels o) := by
  cases o
  rfl

theorem modelName_setRel (o : Obj) (name : String) (v : ObjList) :
    Obj.modelName (Obj.setRel o name v) = Obj.modelName o := by
  cases o
  rfl

theorem scalars_setRel (o : Obj) (name : String) (v : ObjList) :
    Obj.scalars (Obj.setRel o name v) = Obj.scalars o := by
  cases o
  rfl

/-- C8: when a newly decoded row's root primary key matches an already-built
root object, the merge of `reconstruct_objects` only modifies that object's
to-many relation collections — appending the new row's related objects not
already present — and leaves its class, its scalar fields, and every
relation not named by a dictionary entry of the selection (to-one relations
included) unchanged. -/
theorem merge_modifies_only_to_many :
    ∀ (select : SelList) (existing newObj : Obj),
    (∀ name ∈ dictNames select, ∃ exl newl,
      RelList.lookup name (Obj.rels existing) = some (true, exl) ∧
      RelList.lookup name (Obj.rels newObj) = some (true, newl)) →
    ∃ merged, mergeInto select existing newObj = .ok merged ∧
      Obj.modelName merged = Obj.modelName existing ∧
      Obj.scalars merged = Obj.scalars existing ∧
      (∀ name, name ∉ dictNames select →
        RelList.lookup name (Obj.rels merged)
          = RelList.lookup name (Obj.rels existing)) ∧
      (∀ name ∈ dictNames select, ∃ exl newl ml tail,
        RelList.lookup name (Obj.rels existing) = some (true, exl) ∧
        RelList.lookup name (Obj.rels newObj) = some (true, newl) ∧
        RelList.lookup name (Obj.rels merged) = some (true, ml) ∧
        ObjList.toList ml = ObjList.toList exl ++ tail ∧
        ∀ x ∈ tail, x ∈ ObjList.toList newl ∧ x ∉ ObjList.toList exl) := by
  intro select
  induction select with
  | nil =>
    intro existing newObj h
    exact ⟨existing, rfl, rfl, rfl, fun name _ => rfl,
      fun name hname => absurd hname (by simp [dictNames])⟩
  | consField nm rest ih =>
    intro existing newObj h
    simp only [dictNames] at h
    simp only [mergeInto, dictNames]
    exact ih existing newObj h
  | consRel name sub rest ihsub ihrest =>
    intro existing newObj h
    obtain ⟨exl, newl, hex, hnew⟩ := h name (by simp [dictNames])
    have hstep : mergeInto (SelList.consRel name sub rest) existing newObj
        = mergeInto rest (Obj.setRel existing name (mergeList exl newl)) newObj := by
      simp [mergeInto, hex, hnew]
    have hpres' : ∀ nm ∈ dictNames rest, ∃ exl2 newl2,
        RelList.lookup nm
            (Obj.rels (Obj.setRel existing name (mergeList exl newl)))
          = some (true, exl2) ∧
        RelList.lookup nm (Obj.rels newObj) = some (true, newl2) := by
      intro nm hnm
      obtain ⟨exl2, newl2, hex2, hnew2⟩ :=
        h nm (by simp only [dictNames, List.mem_cons]; exact Or.inr hnm)
      by_cases hcase : nm = name
      · subst hcase
        refine ⟨mergeList exl newl, newl2, ?_, hnew2⟩
        rw [rels_setRel]
        exact set_lookup_same nm (mergeList exl newl) _ true exl hex
      · refine ⟨exl2, newl2, ?_, hnew2⟩
        rw [rels_setRel, set_lookup_ne name nm _ _ hcase]
        exact hex2
    obtain ⟨merged, hmerge, hmodel, hscal, hframe, hdecomp⟩ :=
      ihrest (Obj.setRel existing name (mergeList exl newl)) newObj hpres'
    refine ⟨merged, ?_, ?_, ?_, ?_, ?_⟩
    · rw [hstep]
      exact hmerge
    · rw [hmodel, modelName_setRel]
    · rw [hscal, scalars_setRel]
    · intro nm hnm
      have hne : nm ≠ name := by
        intro hx
        exact hnm (by simp [dictNames, hx])
      have hnr : nm ∉ dictNames rest := by
        intro hx
        exact hnm (by simp only [dictNames, List.mem_cons]; exact Or.inr hx)
      rw [hframe nm hnr, rels_setRel, set_lookup_ne name nm _ _ hne]
    · intro nm hnm
      by_cases hcase : nm = name
      · subst hcase
        by_cases hmem : nm ∈ dictNames rest
        · obtain ⟨exl', newl', ml, tail2, hex', hnew', hml, hdc, htail2⟩ :=
            hdecomp nm hmem
          have hexx : RelList.lookup nm
              (Obj.rels (Obj.setRel existing nm (mergeList exl newl)))
              = some (true, mergeList exl newl) := by
            rw [rels_setRel]
            exact set_lookup_same nm _ _ true exl hex
          rw [hexx] at hex'
          injection hex' with hh
          cases hh
          rw [hnew] at hnew'
          injection hnew' with hh2
          cases hh2
          obtain ⟨tail1, hdc1, htail1⟩ := mergeList_decomp newl exl
          refine ⟨exl, newl, ml, tail1 ++ tail2, hex, hnew, hml, ?_, ?_⟩
          · rw [hdc, hdc1, List.append_assoc]
          · intro x hx
            rcases List.mem_append.mp hx with h1 | h2
            · exact htail1 x h1
            · have h3 := htail2 x h2
              refine ⟨h3.1, fun hmem2 => h3.2 ?_⟩
              rw [hdc1]
              exact List.mem_append_left _ hmem2
        · obtain ⟨tail1, hdc1, htail1⟩ := mergeList_decomp newl exl
          refine ⟨exl, newl, mergeList exl newl, tail1, hex, hnew, ?_, hdc1, htail1⟩
          rw [hframe nm hmem, rels_setRel]
          exact set_lookup_same nm _ _ true exl hex
      · have hmem : nm ∈ dictNames rest := by
          rcases (by simpa [dictNames] using hnm : nm = name ∨ nm ∈ dictNames rest)
            with h1 | h2
          · exact absurd h1 hcase
          · exact h2
        obtain ⟨exl', newl', ml, tail2, hex', hnew', hml, hdc, htail2⟩ :=
          hdecomp nm hmem
        rw [rels_setRel, set_lookup_ne name nm _ _ hcase] at hex'
        exact ⟨exl', newl', ml, tail2, hex', hnew', hml, hdc, htail2⟩

/-- The existing root object of the C8 witness: user 1 holding post 1. -/
def mergeExistingUser : Obj :=
  Obj.mk "user" [("id", Val.i 1), ("name", Val.s "John")]
    (RelList.cons "posts" true
      (ObjList.cons (Obj.mk "post" [("id", Val.i 1), ("title", Val.s "Post 1")] .nil)
        ObjList.nil)
      RelList.nil)

/-- The newly decoded object of the C8 witness: user 1 holding post 2. -/
def mergeNewUser : Obj :=
  Obj.mk "user" [("id", Val.i 1), ("name", Val.s "John")]
    (RelList.cons "posts" true
      (ObjList.cons (Obj.mk "post" [("id", Val.i 2), Prod.mk "title" (Val.s "Post 2")] .nil)
        ObjList.nil)
      RelList.nil)

/-- Witness for C8 at the selection of C2, merging the two rows' root
objects. -/
theorem merge_modifies_only_to_many_witness :
    (∀ name ∈ dictNames selUserPosts, ∃ exl newl,
      RelList.lookup name (Obj.rels mergeExistingUser) = some (true, exl) ∧
      RelList.lookup name (Obj.rels mergeNewUser) = some (true, newl)) ∧
    (∃ merged, mergeInto selUserPosts mergeExistingUser mergeNewUser = .ok merged ∧
      Obj.modelName merged = Obj.modelName mergeExistingUser ∧
      Obj.scalars merged = Obj.scalars mergeExistingUser ∧
      (∀ name, name ∉ dictNames selUserPosts →
        RelList.lookup name (Obj.rels merged)
          = RelList.lookup name (Obj.rels mergeExistingUser)) ∧
      (∀ name ∈ dictNames selUserPosts, ∃ exl newl ml tail,
        RelList.lookup name (Obj.rels mergeExistingUser) = some (true, exl) ∧
        RelList.lookup name (Obj.rels mergeNewUser) = some (true, newl) ∧
        RelList.lookup name (Obj.rels merged) = some (true, ml) ∧
        ObjList.toList ml = ObjList.toList exl ++ tail ∧
        ∀ x ∈ tail, x ∈ ObjList.toList newl ∧ x ∉ ObjList.toList exl)) := by
  have hpres : ∀ name ∈ dictNames selUserPosts, ∃ exl newl,
      RelList.lookup name (Obj.rels mergeExistingUser) = some (true, exl) ∧
      RelList.lookup name (Obj.rels mergeNewUser) = some (true, newl) := by
    intro name hname
    have hname2 : name = "posts" := by
      simpa [selUserPosts, dictNames] using hname
    subst hname2
    exact ⟨_, _, rfl, rfl⟩
  exact ⟨hpres,
    merge_modifies_only_to_many selUserPosts mergeExistingUser mergeNewUser hpres⟩

/-! ## Grouped queries (querymate.py lines 448-514)

The per-group loop of `Querymate.run_grouped`. Serialized items are abstracted
to their count, the only aspect the loop's control flow (and the claim)
depends on; `serialize` is length-preserving. -/

/-- One entry of the grouped response (`GroupResult` of grouping.py), with the
serialized items abstracted to their count. -/
structure GroupResult where
  key : Option String
  itemsCount : Nat
  pagination : PaginationInfo
deriving DecidableEq, Repr

/-- Modelled from the spec: `QueryBuilder.fetch_for_group` is called by
`run_grouped` but is not defined anywhere under src (see C10); per the spec it
fetches up to `limit` rows of the group whose true total is `groupTotal`,
after skipping `offset` rows, under the same filter/sort/selection plan plus
the group-key equality — returning `min(limit, max(0, groupTotal - offset))`
rows. -/
def fetch_for_group_count (limit offset groupTotal : Nat) : Nat :=
  min limit (groupTotal - offset)

/-- The loop body of `run_grouped` (lines 467-511): stop (truncated) once the
cumulative count reaches the maximum or the effective limit vanishes;
otherwise fetch at most `effective_limit = min(per_group_limit, remaining)`
rows for the group, serialize, build the group's pagination from its true
total, and set `truncated` when the fetch came up short because of the global
cap. -/
def run_grouped_loop (perGroupLimit maxTotal offset : Nat) :
    List (Option String × Nat) → Nat → List GroupResult × Bool
  | [], _ => ([], false)
  | (key, groupTotal) :: rest, totalFetched =>
    if maxTotal ≤ totalFetched then ([], true)
    else
      let remaining := maxTotal - totalFetched
      let eff := min perGroupLimit remaining
      if eff = 0 then ([], true)
      else
        let fetched := fetch_for_group_count eff offset groupTotal
        let g : GroupResult :=
          ⟨key, fetched, paginationForGroup groupTotal perGroupLimit offset⟩
        let r := run_grouped_loop perGroupLimit maxTotal offset rest
          (totalFetched + fetched)
        (g :: r.1, r.2 || (decide (fetched < eff) && decide (eff < perGroupLimit)))

/-- `Querymate.run_grouped` over the distinct group keys with their true
counts: the loop starts with zero fetched rows and the global cap
`settings.MAX_LIMIT`. -/
def run_grouped (groupKeys : List (Option String × Nat))
    (perGroupLimit offset : Nat) : List GroupResult × Bool :=
  run_grouped_loop perGroupLimit MAX_LIMIT offset groupKeys 0

/-- `sum(len(g.items) for g in groups)`. -/
def sumItems (gs : List GroupResult) : Nat :=
  (gs.map (fun g => g.itemsCount)).sum

theorem run_grouped_loop_sum (pG mT off : Nat) :
    ∀ (keys : List (Option String × Nat)) (tf : Nat),
      sumItems (run_grouped_loop pG mT off keys tf).1 ≤ mT - tf := by
  intro keys
  induction keys with
  | nil =>
    intro tf
    simp [run_grouped_loop, sumItems]
  | cons hd rest ih =>
    intro tf
    obtain ⟨key, total⟩ := hd
    simp only [run_grouped_loop]
    by_cases h1 : mT ≤ tf
    · rw [if_pos h1]
      simp [sumItems]
    · rw [if_neg h1]
      by_cases h2 : min pG (mT - tf) = 0
      · rw [if_pos h2]
        simp [sumItems]
      · rw [if_neg h2]
        simp only [sumItems, List.map_cons, List.sum_cons]
        have hih := ih (tf + fetch_for_group_count (min pG (mT - tf)) off total)
        have hf : fetch_for_group_count (min pG (mT - tf)) off total ≤ mT - tf := by
          simp only [fetch_for_group_count]
          omega
        simp only [sumItems] at hih
        omega

theorem run_grouped_loop_item (pG mT off : Nat) :
    ∀ (keys : List (Option String × Nat)) (tf : Nat) (g : GroupResult),
      g ∈ (run_grouped_loop pG mT off keys tf).1 → g.itemsCount ≤ pG := by
  intro keys
  induction keys with
  | nil =>
    intro tf g hg
    simp [run_grouped_loop] at hg
  | cons hd rest ih =>
    intro tf g hg
    obtain ⟨key, total⟩ := hd
    simp only [run_grouped_loop] at hg
    by_cases h1 : mT ≤ tf
    · rw [if_pos h1] at hg
      simp at hg
    · rw [if_neg h1] at hg
      by_cases h2 : min pG (mT - tf) = 0
      · rw [if_pos h2] at hg
        simp at hg
      · rw [if_neg h2] at hg
        simp only [List.mem_cons] at hg
        rcases hg with rfl | hg2
        · show fetch_for_group_count (min pG (mT - tf)) off total ≤ pG
          simp only [fetch_for_group_count]
          omega
        · exact ih _ g hg2

theorem run_grouped_loop_truncated (pG mT off : Nat) :
    ∀ (keys : List (Option String × Nat)) (tf : Nat),
      (run_grouped_loop pG mT off keys tf).1.length < keys.length →
      (run_grouped_loop pG mT off keys tf).2 = true := by
  intro keys
  induction keys with
  | nil =>
    intro tf h
    simp [run_grouped_loop] at h
  | cons hd rest ih =>
    intro tf h
    obtain ⟨key, total⟩ := hd
    simp only [run_grouped_loop] at h ⊢
    by_cases h1 : mT ≤ tf
    · rw [if_pos h1]
    · rw [if_neg h1] at h ⊢
      by_cases h2 : min pG (mT - tf) = 0
      · rw [if_pos h2]
      · rw [if_neg h2] at h ⊢
        simp only [List.length_cons] at h
        have hlen := Nat.lt_of_succ_lt_succ h
        rw [ih _ hlen]
        simp

/-- C3 counterexample: two groups with true totals 250 and 250 (summing to
500), per-group limit 100 and global maximum 200: every fetched group receives
its full per-group page, the key list is exhausted exactly at the cap, and the
response reports `truncated = false` — the claim's `truncated == true` fails. -/
theorem run_grouped_truncated_counterexample :
    (([(some "a", 250), (some "b", 250)] :
        List (Option String × Nat)).map (fun p => p.2)).sum = 500 ∧
    MAX_LIMIT = 200 ∧
    sumItems (run_grouped [(some "a", 250), (some "b", 250)] 100 0).1 = 200 ∧
    (run_grouped [(some "a", 250), (some "b", 250)] 100 0).2 = false := by
  refine ⟨by decide, by decide, by decide, by decide⟩

/-- C3 amended: with global maximum `MAX_LIMIT = 200` and per-group limit 100,
for groups whose true totals sum to 500 the grouped response always satisfies
`sum(len(items)) <= 200` with every group's fetch bounded by the per-group
limit (and by the remaining global budget, by construction of the effective
limit), and whenever the cap stops the loop before the group-key list is
exhausted the response reports `truncated = true`; but `truncated` is not
always true — it stays false when every processed group receives its full
per-group page and the key list ends exactly at the cap. -/
theorem run_grouped_cap (keys : List (Option String × Nat)) (offset : Nat)
    (htot : (keys.map (fun p => p.2)).sum = 500) :
    sumItems (run_grouped keys 100 offset).1 ≤ 200 ∧
    (∀ g ∈ (run_grouped keys 100 offset).1, g.itemsCount ≤ 100) ∧
    ((run_grouped keys 100 offset).1.length < keys.length →
      (run_grouped keys 100 offset).2 = true) := by
  refine ⟨?_, ?_, ?_⟩
  · have h := run_grouped_loop_sum 100 MAX_LIMIT offset keys 0
    simpa [run_grouped, MAX_LIMIT] using h
  · intro g hg
    exact run_grouped_loop_item 100 MAX_LIMIT offset keys 0 g hg
  · exact run_grouped_loop_truncated 100 MAX_LIMIT offset keys 0

/-- Witness for C3 (amended) at the counterexample input: the totals sum to
500 and the capped-sum, per-group-bound and truncation properties hold. -/
theorem run_grouped_cap_witness :
    (([(some "a", 250), (some "b", 250)] :
        List (Option String × Nat)).map (fun p => p.2)).sum = 500 ∧
    (sumItems (run_grouped [(some "a", 250), (some "b", 250)] 100 0).1 ≤ 200 ∧
     (∀ g ∈ (run_grouped [(some "a", 250), (some "b", 250)] 100 0).1,
        g.itemsCount ≤ 100) ∧
     ((run_grouped [(some "a", 250), (some "b", 250)] 100 0).1.length
          < ([(some "a", 250), (some "b", 250)] :
            List (Option String × Nat)).length →
       (run_grouped [(some "a", 250), (some "b", 250)] 100 0).2 = true)) :=
  ⟨by decide, run_grouped_cap [(some "a", 250), (some "b", 250)] 0 (by decide)⟩

end Querymate
